import Mathlib

/-!
Verification of the session lifecycle manager and terminal-stream
interpretation pipeline of a web terminal-sharing server.

The embedding follows src/unnamed/part_000 (mirrored, up to the answer
extractor and the completion-marker test, by src/server.js).  The
per-connection mutable variables of the connection handler become the
fields of ConnState; the event handlers registered on the socket and on
the backing child process become explicit functions from state and event
to state and a list of externally visible effects (frames sent to the
client, writes to the child, signals, spawns).  Timers are modelled by
absolute deadlines: the completion timer armed by setTimeout at time t
is a deadline t + 2000, a pending setTimeout that was cleared is the
deadline none, and a timer-fire event is enabled exactly when the
current deadline equals the current time.

The two text heuristics, needsUserInput and extractAnswer, only feed the
interpretation side channel; every claim treated here is independent of
their outcome, so the machine is parametric in a Heuristics record and
the theorems quantify over it (which is exactly the sense in which the
relay is uninfluenced by interpretation outcomes).
-/

namespace ClaudeWebRemote

/-- Outbound frame types of the connection channel. -/
inductive Frame where
  | ready : Frame
  | output : String → Frame
  | exitF : Option Int → Frame
  | error : String → Frame
  | inputNeeded : String → Frame
  | ttsAudio : String → Frame
deriving DecidableEq

/-- Inbound messages after JSON parsing: input frames, resize frames, and
unparseable payloads which the source forwards raw to the child. -/
inductive InMsg where
  | input : String → InMsg
  | resize : Nat → Nat → InMsg
  | malformed : String → InMsg
deriving DecidableEq

/-- Externally visible actions of one handler invocation. -/
inductive Effect where
  | frame : Frame → Effect
  | stdinWrite : String → Effect
  | stdinWriteDelayed : Nat → String → Effect
  | kill : String → Effect
  | spawn : Nat → Nat → Effect
deriving DecidableEq

/-- Per-connection mutable state: the closure variables of the
connection handler in the source (child, idleTimer, pingInterval,
rawBuffer, userSentAt, ttsTimer, ttsDone, lastUserText, isFirstMessage,
inputNotifSent), plus the readiness of the socket which gates send. -/
structure ConnState where
  wsOpen : Bool
  child : Bool
  idleTimer : Bool
  pingActive : Bool
  rawBuffer : String
  userSentAt : Nat
  ttsDeadline : Option Nat
  ttsDone : Bool
  lastUserText : String
  isFirstMessage : Bool
  inputNotifSent : Bool
deriving DecidableEq

/-- The two text-interpretation heuristics the tracker calls into.  The
claims hold for every choice of them, so they are parameters. -/
structure Heuristics where
  needsUserInput : String → Option String
  extractAnswer : String → String → String

/-- State of a freshly accepted connection before the initial spawn. -/
def initState : ConnState :=
  { wsOpen := true, child := false, idleTimer := false, pingActive := true,
    rawBuffer := "", userSentAt := 0, ttsDeadline := none, ttsDone := false,
    lastUserText := "", isFirstMessage := true, inputNotifSent := false }

/-- The send helper of the source: delivers a frame only while the
socket readyState is open, and never throws. -/
def emit (s : ConnState) (f : Frame) : List Effect :=
  if s.wsOpen = true then [Effect.frame f] else []

/-- The end-of-turn prompt marker character the completion heuristic
counts in the raw buffer. -/
def promptChar : Char := '❯'

/-- Number of occurrences of the prompt marker in a string, as computed
by the global regex match in the source. -/
def promptCount (s : String) : Nat :=
  s.data.countP (fun c => c == promptChar)

/-- Occurrences of the prompt marker required before the completion
timer is armed: two while isFirstMessage is still set, one afterwards. -/
def neededPrompts (first : Bool) : Nat :=
  if first = true then 2 else 1

def CRstr : String := "\x0d"

/-- Whether a string ends in a carriage return, the endsWith test of the
source (a one-character suffix test). -/
def endsWithCR (data : String) : Bool :=
  data.data.getLast? = some '\x0d'

/-- Drop the last character, the slice from zero to minus one of the
source. -/
def dropLastChar (data : String) : String :=
  String.mk data.data.dropLast

/-- Whitespace for the trim of the source. -/
def isWsChar (c : Char) : Bool :=
  c == ' ' || c == '\t' || c == '\n' || c == '\x0d'

/-- The trim of the source: whitespace removed from both ends. -/
def jsTrim (data : String) : String :=
  String.mk (((data.data.dropWhile isWsChar).reverse.dropWhile isWsChar).reverse)

/-- The toLowerCase of the source. -/
def jsLower (data : String) : String :=
  String.mk (data.data.map Char.toLower)

/-- Truncation to a character count, the substring from zero of the
source. -/
def takeChars (data : String) (n : Nat) : String :=
  String.mk (data.data.take n)

/-- Append an output chunk to the raw buffer of the current turn. -/
def appendChunk (s : ConnState) (raw : String) : ConnState :=
  { s with rawBuffer := s.rawBuffer ++ raw }

/-- The notification part of onOutputChunk: while the per-turn flag is
clear, run the detector on the whole buffer and, on a match, set the
flag and send an input-needed frame. -/
def notifStep (H : Heuristics) (s : ConnState) : ConnState × List Effect :=
  if s.inputNotifSent = true then (s, [])
  else
    match H.needsUserInput s.rawBuffer with
    | some m => ({ s with inputNotifSent := true }, emit s (Frame.inputNeeded m))
    | none => (s, [])

/-- The completion-timer part of onOutputChunk: when the turn is already
settled the pending timer is left untouched, otherwise it is cleared and
re-armed for one quiescence window after now, but only once the buffer
shows the required number of prompt markers.  The source clears first
and then conditionally arms; since the clear only writes the timer
field, that is the two lower branches here. -/
def armStep (s : ConnState) (now : Nat) : ConnState :=
  if s.ttsDone = true then s
  else if promptCount s.rawBuffer < neededPrompts s.isFirstMessage then
    { s with ttsDeadline := none }
  else { s with ttsDeadline := some (now + 2000) }

/-- onOutputChunk of the source: ignore chunks before the first input
and chunks past the 120 second hard ceiling, otherwise append, run the
notification check, and update the completion timer. -/
def onOutputChunk (H : Heuristics) (s : ConnState) (raw : String) (now : Nat) :
    ConnState × List Effect :=
  if s.userSentAt = 0 then (s, [])
  else if 120000 < now - s.userSentAt then (s, [])
  else
    let p := notifStep H (appendChunk s raw)
    (armStep p.1 now, p.2)

/-- The stdout data handler: relay the chunk verbatim as an output
frame, then hand it to the turn tracker. -/
def onStdoutData (H : Heuristics) (s : ConnState) (data : String) (now : Nat) :
    ConnState × List Effect :=
  let p := onOutputChunk H s data now
  (p.1, emit s (Frame.output data) ++ p.2)

/-- The stderr data handler: relay the chunk verbatim as an output
frame.  It does not touch the turn tracker. -/
def onStderrData (s : ConnState) (data : String) : ConnState × List Effect :=
  (s, emit s (Frame.output data))

/-- The child exit handler: report the exit status and clear the
session handle. -/
def onChildExit (s : ConnState) (code : Option Int) : ConnState × List Effect :=
  ({ s with child := false }, emit s (Frame.exitF code))

def failMsgHead : String := "Failed to start Claude: "

/-- The child error handler: report the spawn failure and clear the
session handle; nothing retries the spawn. -/
def onChildError (s : ConnState) (emsg : String) : ConnState × List Effect :=
  ({ s with child := false }, emit s (Frame.error (failMsgHead ++ emsg)))

/-- startSession of the source: a no-op while a child is live, otherwise
spawn with the given geometry (zero meaning the 80x24 default of
spawnClaude) and send the ready frame. -/
def startSession (s : ConnState) (cols rows : Nat) : ConnState × List Effect :=
  if s.child = true then (s, [])
  else
    ({ s with child := true },
      Effect.spawn (if cols = 0 then 80 else cols) (if rows = 0 then 24 else rows)
        :: emit s Frame.ready)

/-- The body of the completion setTimeout callback: extract the answer
from the turn buffer; when it exceeds the minimum length, mark the turn
settled, clear the first-message flag, and relay the synthesized audio
unless the external synthesis call fails; a too-short extraction leaves
the turn unsettled.  The spent timer is gone either way. -/
def ttsTimerFire (H : Heuristics) (s : ConnState) (pollyOk : Bool) :
    ConnState × List Effect :=
  if 5 < (H.extractAnswer s.lastUserText s.rawBuffer).length then
    ({ s with ttsDone := true, isFirstMessage := false, ttsDeadline := none },
      if pollyOk = true then
        emit s (Frame.ttsAudio (takeChars (H.extractAnswer s.lastUserText s.rawBuffer) 3000))
      else [])
  else
    ({ s with ttsDeadline := none }, [])

/-- Strip one trailing carriage return, as the anchored regex replace in
the source does. -/
def stripTrailCR (data : String) : String :=
  if endsWithCR data = true then dropLastChar data else data

/-- The turn reset performed when an input frame is forwarded: buffer
and per-turn flags cleared, turn timestamped, the just-submitted text
remembered lowercased and trimmed, and the pending completion timer
cleared. -/
def resetTurn (s : ConnState) (data : String) (now : Nat) : ConnState :=
  { s with rawBuffer := "", userSentAt := now, ttsDone := false,
           inputNotifSent := false,
           lastUserText := jsLower (jsTrim (stripTrailCR data)),
           ttsDeadline := none }

/-- The input branch of the socket message handler: dropped when no
child is live, otherwise the turn is reset and the bytes forwarded,
splitting a trailing carriage return into a delayed second write. -/
def onInputMsg (s : ConnState) (data : String) (now : Nat) :
    ConnState × List Effect :=
  if s.child = false then (s, [])
  else if 1 < data.length ∧ endsWithCR data = true then
    (resetTurn s data now,
      [Effect.stdinWrite (dropLastChar data), Effect.stdinWriteDelayed 200 CRstr])
  else
    (resetTurn s data now, [Effect.stdinWrite data])

/-- The resize branch: starts a session only when none is live and both
dimensions are nonzero. -/
def onResizeMsg (s : ConnState) (cols rows : Nat) : ConnState × List Effect :=
  if s.child = false ∧ cols ≠ 0 ∧ rows ≠ 0 then startSession s cols rows
  else (s, [])

/-- The socket message handler; a malformed payload is forwarded raw to
the child. -/
def onMessage (s : ConnState) (m : InMsg) (now : Nat) : ConnState × List Effect :=
  match m with
  | InMsg.input data => onInputMsg s data now
  | InMsg.resize cols rows => onResizeMsg s cols rows
  | InMsg.malformed raw =>
    if s.child = true then (s, [Effect.stdinWrite raw]) else (s, [])

def sigterm : String := "SIGTERM"

/-- killSession of the source: clear the idle timer, and when a child is
live send it SIGTERM and drop the handle; idempotent and safe with no
session. -/
def killSession (s : ConnState) : ConnState × List Effect :=
  if s.child = true then
    ({ s with idleTimer := false, child := false }, [Effect.kill sigterm])
  else ({ s with idleTimer := false }, [])

/-- The socket close handler: the keepalive interval is cleared, the
socket is no longer open, and the session is killed. -/
def wsClose (s : ConnState) : ConnState × List Effect :=
  killSession { s with pingActive := false, wsOpen := false }

def authErrMsg : String := "Invalid or missing auth token."

def unauthorizedMsg : String := "Unauthorized"

/-- Outcome of the connection handshake: either the socket is closed
with a close code before any per-connection state exists, or the
connection state is created and the initial session started. -/
inductive ConnOutcome where
  | rejected : List Frame → Nat → String → ConnOutcome
  | accepted : ConnState → List Effect → ConnOutcome
deriving Inhabited

/-- The connection handler head: when an auth token is configured and
the query token does not match it, send an error frame and close with
code 4001; otherwise create the state and spawn immediately at 80x24. -/
def onConnection (authToken : String) (reqToken : Option String) : ConnOutcome :=
  if authToken ≠ "" ∧ reqToken ≠ some authToken then
    ConnOutcome.rejected [Frame.error authErrMsg] 4001 unauthorizedMsg
  else
    let p := startSession initState 80 24
    ConnOutcome.accepted p.1 p.2

/-- Events serialized onto the sequential stream of one connection. -/
inductive Event where
  | stdout : String → Nat → Event
  | stderr : String → Event
  | msg : InMsg → Nat → Event
  | childExit : Option Int → Event
  | childError : String → Event
  | ttsFire : Nat → Bool → Event
  | close : Event
deriving DecidableEq

/-- One step of the per-connection machine.  The completion-timer fire
is enabled exactly when the pending deadline equals the current time: a
timer cleared or re-armed by a later chunk can no longer fire at its old
time. -/
def step (H : Heuristics) (s : ConnState) : Event → ConnState × List Effect
  | Event.stdout data now => onStdoutData H s data now
  | Event.stderr data => onStderrData s data
  | Event.msg m now => onMessage s m now
  | Event.childExit code => onChildExit s code
  | Event.childError e => onChildError s e
  | Event.ttsFire now ok =>
    if s.ttsDeadline = some now then ttsTimerFire H s ok else (s, [])
  | Event.close => wsClose s

/-- Run a list of events, collecting all effects in order. -/
def runEvents (H : Heuristics) (s : ConnState) : List Event → ConnState × List Effect
  | [] => (s, [])
  | e :: es =>
    let p := step H s e
    let q := runEvents H p.1 es
    (q.1, p.2 ++ q.2)

/-- Whether an effect is an input-needed frame. -/
def isNotifEffect : Effect → Bool
  | Effect.frame (Frame.inputNeeded _) => true
  | _ => false

/-- Whether an effect is a tts-audio frame. -/
def isTtsEffect : Effect → Bool
  | Effect.frame (Frame.ttsAudio _) => true
  | _ => false

/-- Number of input-needed frames in an effect list. -/
def notifCount (l : List Effect) : Nat :=
  l.countP isNotifEffect

/-- Number of tts-audio frames in an effect list. -/
def ttsCount (l : List Effect) : Nat :=
  l.countP isTtsEffect

/-- A completion-timer fire is possible at time t exactly when the
pending deadline is t. -/
def fireEnabled (s : ConnState) (t : Nat) : Prop :=
  s.ttsDeadline = some t

instance (s : ConnState) (t : Nat) : Decidable (fireEnabled s t) :=
  inferInstanceAs (Decidable (s.ttsDeadline = some t))

/-- Events that start a new turn. -/
def isInputEvt : Event → Bool
  | Event.msg (InMsg.input _) _ => true
  | _ => false

/-!
The escape-sequence normalizer stripAnsiServer is a chain of seven
global regex replaces.  Each replace is embedded as a one-pass scanner
over the character list.  All the regexes have the form of a literal
head, a greedy star over one character class, and a final character
class disjoint from the starred class, so the JavaScript leftmost match
with backtracking degenerates to: at each position, take the maximal
starred run and test the next character; on failure resume scanning one
character after the match start.  The scanners implement exactly that,
carrying the not-yet-committed characters of a candidate match in an
explicit mode so that the recursion is structural.
-/

def ESC : Char := Char.ofNat 27

def BEL : Char := Char.ofNat 7

/-- Scanner modes for the OSC pass: top level, just after an escape
byte, or inside the body of a candidate OSC sequence (the body read so
far is kept reversed). -/
inductive OscMode where
  | normal : OscMode
  | afterEsc : OscMode
  | body : List Char → OscMode

/-- One pass of the first replace, removing operating-system-command
sequences: an escape byte, a right bracket, any run of bytes other than
the bell byte, and the bell byte. -/
def oscGo : OscMode → List Char → List Char
  | OscMode.normal, [] => []
  | OscMode.normal, c :: cs =>
    if c = ESC then oscGo OscMode.afterEsc cs else c :: oscGo OscMode.normal cs
  | OscMode.afterEsc, [] => [ESC]
  | OscMode.afterEsc, d :: ds =>
    if d = ']' then oscGo (OscMode.body []) ds
    else if d = ESC then ESC :: oscGo OscMode.afterEsc ds
    else ESC :: d :: oscGo OscMode.normal ds
  | OscMode.body p, [] => ESC :: ']' :: p.reverse
  | OscMode.body p, b :: bs =>
    if b = BEL then oscGo OscMode.normal bs else oscGo (OscMode.body (b :: p)) bs

/-- Remove OSC sequences, the first replace of stripAnsiServer. -/
def stripOsc (l : List Char) : List Char := oscGo OscMode.normal l

/-- Parameter bytes of a control sequence in the source regexes: digits,
the semicolon, and the question mark. -/
def isCsiParam (c : Char) : Bool :=
  decide ((0x30 ≤ c.toNat ∧ c.toNat ≤ 0x39) ∨ c.toNat = 0x3b ∨ c.toNat = 0x3f)

/-- Final bytes of the cursor-relocation replace. -/
def isCursorFinal (c : Char) : Bool :=
  c == 'A' || c == 'B' || c == 'C' || c == 'D' || c == 'H' || c == 'J'

/-- Final bytes of the general parameterized-control-sequence replace:
any ASCII letter. -/
def isAlphaFinal (c : Char) : Bool :=
  decide ((0x41 ≤ c.toNat ∧ c.toNat ≤ 0x5a) ∨ (0x61 ≤ c.toNat ∧ c.toNat ≤ 0x7a))

/-- Scanner modes for the two control-sequence passes: top level, after
an escape byte, or inside the parameter run of a candidate sequence. -/
inductive CsiMode where
  | normal : CsiMode
  | afterEsc : CsiMode
  | params : List Char → CsiMode

/-- Shared scanner for the second and third replaces: an escape byte, a
left bracket, a greedy run of parameter bytes, and one final byte from
finalP; a match is replaced by repl. -/
def csiGo (finalP : Char → Bool) (repl : List Char) : CsiMode → List Char → List Char
  | CsiMode.normal, [] => []
  | CsiMode.normal, c :: cs =>
    if c = ESC then csiGo finalP repl CsiMode.afterEsc cs
    else c :: csiGo finalP repl CsiMode.normal cs
  | CsiMode.afterEsc, [] => [ESC]
  | CsiMode.afterEsc, d :: ds =>
    if d = '[' then csiGo finalP repl (CsiMode.params []) ds
    else if d = ESC then ESC :: csiGo finalP repl CsiMode.afterEsc ds
    else ESC :: d :: csiGo finalP repl CsiMode.normal ds
  | CsiMode.params p, [] => ESC :: '[' :: p.reverse
  | CsiMode.params p, c :: cs =>
    if isCsiParam c = true then csiGo finalP repl (CsiMode.params (c :: p)) cs
    else if finalP c = true then repl ++ csiGo finalP repl CsiMode.normal cs
    else
      ESC :: '[' :: p.reverse ++
        (if c = ESC then csiGo finalP repl CsiMode.afterEsc cs
         else c :: csiGo finalP repl CsiMode.normal cs)

/-- Replace cursor-relocation sequences by a single space, the second
replace of stripAnsiServer. -/
def cursorToSpace (l : List Char) : List Char :=
  csiGo isCursorFinal [' '] CsiMode.normal l

/-- Remove the remaining parameterized control sequences, the third
replace of stripAnsiServer. -/
def stripCsi (l : List Char) : List Char :=
  csiGo isAlphaFinal [] CsiMode.normal l

/-- Designator bytes of the character-set replace. -/
def isParenByte (c : Char) : Bool := c == '(' || c == ')'

/-- Set bytes of the character-set replace: capital letters and digits. -/
def isUpperDigit (c : Char) : Bool :=
  decide ((0x41 ≤ c.toNat ∧ c.toNat ≤ 0x5a) ∨ (0x30 ≤ c.toNat ∧ c.toNat ≤ 0x39))

/-- Scanner modes for the character-set pass. -/
inductive CsMode where
  | normal : CsMode
  | afterEsc : CsMode
  | paren : Char → CsMode

/-- Scanner for the fourth replace: an escape byte, an opening or
closing parenthesis, and one capital letter or digit, removed. -/
def charsetGo : CsMode → List Char → List Char
  | CsMode.normal, [] => []
  | CsMode.normal, c :: cs =>
    if c = ESC then charsetGo CsMode.afterEsc cs else c :: charsetGo CsMode.normal cs
  | CsMode.afterEsc, [] => [ESC]
  | CsMode.afterEsc, d :: ds =>
    if isParenByte d = true then charsetGo (CsMode.paren d) ds
    else if d = ESC then ESC :: charsetGo CsMode.afterEsc ds
    else ESC :: d :: charsetGo CsMode.normal ds
  | CsMode.paren d, [] => [ESC, d]
  | CsMode.paren d, e :: es =>
    if isUpperDigit e = true then charsetGo CsMode.normal es
    else if e = ESC then ESC :: d :: charsetGo CsMode.afterEsc es
    else ESC :: d :: e :: charsetGo CsMode.normal es

/-- Remove character-set designation sequences, the fourth replace. -/
def stripCharset (l : List Char) : List Char := charsetGo CsMode.normal l

/-- Intermediate bytes of the generic escape replace. -/
def isInterByte (c : Char) : Bool :=
  decide (0x20 ≤ c.toNat ∧ c.toNat ≤ 0x2f)

/-- Final bytes of the generic escape replace. -/
def isEscFinal (c : Char) : Bool :=
  decide (0x40 ≤ c.toNat ∧ c.toNat ≤ 0x7e)

/-- Scanner modes for the generic escape pass. -/
inductive EscMode where
  | normal : EscMode
  | inter : List Char → EscMode

/-- Scanner for the fifth replace: an escape byte, a greedy run of
intermediate bytes, and one final byte, removed. -/
def escGo : EscMode → List Char → List Char
  | EscMode.normal, [] => []
  | EscMode.normal, c :: cs =>
    if c = ESC then escGo (EscMode.inter []) cs else c :: escGo EscMode.normal cs
  | EscMode.inter p, [] => ESC :: p.reverse
  | EscMode.inter p, c :: cs =>
    if isInterByte c = true then escGo (EscMode.inter (c :: p)) cs
    else if isEscFinal c = true then escGo EscMode.normal cs
    else
      ESC :: p.reverse ++
        (if c = ESC then escGo (EscMode.inter []) cs
         else c :: escGo EscMode.normal cs)

/-- Remove generic escape sequences, the fifth replace. -/
def stripEsc (l : List Char) : List Char := escGo EscMode.normal l

/-- Bytes removed by the sixth replace: the ranges 00 to 08, 0B to 0C,
and 0E to 1F.  Tab, newline, carriage return and the delete byte are
kept. -/
def isStrippedCtrl (c : Char) : Bool :=
  decide (c.toNat ≤ 0x8 ∨ c.toNat = 0xb ∨ c.toNat = 0xc ∨
    (0xe ≤ c.toNat ∧ c.toNat ≤ 0x1f))

/-- Remove the control bytes of the sixth replace. -/
def stripCtrl (l : List Char) : List Char :=
  l.filter (fun c => !(isStrippedCtrl c))

/-- Scanner for the seventh replace, turning a carriage return with an
optional following line feed into a single line feed; the flag records a
pending carriage return. -/
def crGo : Bool → List Char → List Char
  | false, [] => []
  | false, c :: cs =>
    if c = '\x0d' then crGo true cs else c :: crGo false cs
  | true, [] => ['\n']
  | true, c :: cs =>
    if c = '\n' then '\n' :: crGo false cs
    else if c = '\x0d' then '\n' :: crGo true cs
    else '\n' :: c :: crGo false cs

/-- Normalize carriage returns to line feeds, the seventh replace. -/
def crToLf (l : List Char) : List Char := crGo false l

/-- stripAnsiServer of the source: the seven replaces chained, each pass
operating on the output of the previous one. -/
def stripAnsiServer (s : String) : String :=
  String.mk (crToLf (stripCtrl (stripEsc (stripCharset
    (stripCsi (cursorToSpace (stripOsc s.data)))))))

/-!
Concrete instances used by witnesses and counterexamples.
-/

/-- Heuristics whose detector never fires and whose extractor returns
the empty answer. -/
def hNone : Heuristics :=
  { needsUserInput := fun _ => none, extractAnswer := fun _ _ => "" }

def longAnswer : String := "This is a long answer."

/-- Heuristics whose extractor always returns an answer above the
minimum length threshold. -/
def hLong : Heuristics :=
  { needsUserInput := fun _ => none, extractAnswer := fun _ _ => longAnswer }

/-- A connection whose initial session spawn has happened. -/
def sLive : ConnState := { initState with child := true }

/-- A live connection inside a turn that started at time 1000. -/
def sActive : ConnState := { sLive with userSentAt := 1000 }

def xStr : String := "x"

def userHi : String := "hi\x0d"

def userA : String := "a\x0d"

def userB : String := "b\x0d"

def lsCmd : String := "ls\x0d"

def twoPrompts : String := "❯❯"

def onePrompt : String := "❯ ok"

/-- A turn that arms its completion timer just inside the hard ceiling
and fires just past it. -/
def lateTrace : List Event :=
  [Event.msg (InMsg.input userHi) 1000,
   Event.stdout twoPrompts 120500,
   Event.ttsFire 122500 true]

/-- The same turn observed just before the fire. -/
def lateTracePre : List Event :=
  [Event.msg (InMsg.input userHi) 1000,
   Event.stdout twoPrompts 120500]

/-- A turn with several chunks and two fire attempts. -/
def c2Trace : List Event :=
  [Event.stdout twoPrompts 1500,
   Event.ttsFire 3500 true,
   Event.stdout onePrompt 4000,
   Event.ttsFire 6000 true]

/-- Output chunks and timer attempts dated past the hard ceiling of the
turn that started at time 1000. -/
def lateEvents : List Event :=
  [Event.stdout xStr 125000,
   Event.ttsFire 127000 true,
   Event.close]

/-- Two consecutive turns, the second receiving a single prompt
marker. -/
def secondTurnTrace : List Event :=
  [Event.msg (InMsg.input userA) 1000,
   Event.msg (InMsg.input userB) 2000,
   Event.stdout onePrompt 3000]

def secretTok : String := "s3cret"

/-- The delete byte, a non-printable control byte other than newline. -/
def delStr : String := "\x7f"

/-- A live connection with a pending completion timer. -/
def sPendingTts : ConnState := { sActive with ttsDeadline := some 7000 }

/-- Events acceptable after a turn has passed the hard ceiling: output
chunks dated beyond the ceiling relative to the turn start u, and
anything else except a new input. -/
def lateOk (u : Nat) : Event → Prop
  | Event.stdout _ t => 120000 < t - u
  | Event.msg (InMsg.input _) _ => False
  | _ => True

instance (u : Nat) : (e : Event) → Decidable (lateOk u e)
  | Event.stdout _ t => inferInstanceAs (Decidable (120000 < t - u))
  | Event.stderr _ => inferInstanceAs (Decidable True)
  | Event.msg (InMsg.input _) _ => inferInstanceAs (Decidable False)
  | Event.msg (InMsg.resize _ _) _ => inferInstanceAs (Decidable True)
  | Event.msg (InMsg.malformed _) _ => inferInstanceAs (Decidable True)
  | Event.childExit _ => inferInstanceAs (Decidable True)
  | Event.childError _ => inferInstanceAs (Decidable True)
  | Event.ttsFire _ _ => inferInstanceAs (Decidable True)
  | Event.close => inferInstanceAs (Decidable True)

/-!
Counting lemmas for effect lists.
-/

theorem runEvents_cons (H : Heuristics) (s : ConnState) (e : Event)
    (es : List Event) :
    runEvents H s (e :: es) =
      ((runEvents H (step H s e).1 es).1,
        (step H s e).2 ++ (runEvents H (step H s e).1 es).2) := rfl

theorem notifCount_append (a b : List Effect) :
    notifCount (a ++ b) = notifCount a + notifCount b := by
  simp [notifCount, List.countP_append]

theorem ttsCount_append (a b : List Effect) :
    ttsCount (a ++ b) = ttsCount a + ttsCount b := by
  simp [ttsCount, List.countP_append]

theorem countP_emit_zero (p : Effect → Bool) (s : ConnState) (f : Frame)
    (h : p (Effect.frame f) = false) : (emit s f).countP p = 0 := by
  unfold emit
  split <;> simp [h]

theorem countP_emit_le (p : Effect → Bool) (s : ConnState) (f : Frame) :
    (emit s f).countP p ≤ 1 := by
  unfold emit
  split
  · simp [List.countP_cons]
    split <;> omega
  · simp

/-!
Structural lemmas about the pieces of onOutputChunk.
-/

/-- The notification stage changes at most the notification flag. -/
theorem notifStep_fst (H : Heuristics) (s : ConnState) :
    (notifStep H s).1.ttsDeadline = s.ttsDeadline ∧
    (notifStep H s).1.ttsDone = s.ttsDone ∧
    (notifStep H s).1.rawBuffer = s.rawBuffer ∧
    (notifStep H s).1.isFirstMessage = s.isFirstMessage ∧
    (notifStep H s).1.userSentAt = s.userSentAt := by
  unfold notifStep
  split
  · exact ⟨rfl, rfl, rfl, rfl, rfl⟩
  · cases H.needsUserInput s.rawBuffer <;> exact ⟨rfl, rfl, rfl, rfl, rfl⟩

/-- The timer stage of an unsettled turn clears the deadline and re-arms
it one window after now exactly when the buffer has enough prompt
markers. -/
theorem armStep_deadline (s : ConnState) (now : Nat) (h : s.ttsDone = false) :
    (armStep s now).ttsDeadline =
      (if promptCount s.rawBuffer < neededPrompts s.isFirstMessage then none
       else some (now + 2000)) := by
  unfold armStep
  simp [h]
  split <;> rfl

/-- The timer stage changes at most the deadline. -/
theorem armStep_fst (s : ConnState) (now : Nat) :
    (armStep s now).isFirstMessage = s.isFirstMessage ∧
    (armStep s now).rawBuffer = s.rawBuffer ∧
    (armStep s now).ttsDone = s.ttsDone ∧
    (armStep s now).userSentAt = s.userSentAt ∧
    (armStep s now).inputNotifSent = s.inputNotifSent := by
  unfold armStep
  split
  · exact ⟨rfl, rfl, rfl, rfl, rfl⟩
  · split <;> exact ⟨rfl, rfl, rfl, rfl, rfl⟩

/-- Inside an active turn within the ceiling, onOutputChunk is the
composition of the append, notification and timer stages. -/
theorem onOutputChunk_active (H : Heuristics) (s : ConnState) (raw : String)
    (now : Nat) (h1 : ¬ s.userSentAt = 0) (h2 : ¬ 120000 < now - s.userSentAt) :
    onOutputChunk H s raw now =
      (armStep (notifStep H (appendChunk s raw)).1 now,
        (notifStep H (appendChunk s raw)).2) := by
  unfold onOutputChunk
  simp [h1, h2]

/-- A settled turn leaves the timer stage inert. -/
theorem armStep_done (s : ConnState) (now : Nat) (h : s.ttsDone = true) :
    armStep s now = s := by
  unfold armStep
  simp [h]

/-- Once the notification flag is set, the notification stage is
inert. -/
theorem notifStep_sent (H : Heuristics) (u : ConnState)
    (h : u.inputNotifSent = true) : notifStep H u = (u, []) := by
  unfold notifStep
  simp [h]

/-- The notification stage emits at most one frame. -/
theorem notifStep_count_le (H : Heuristics) (u : ConnState) :
    notifCount (notifStep H u).2 ≤ 1 := by
  unfold notifStep
  split
  · simp [notifCount]
  · cases hm : H.needsUserInput u.rawBuffer
    · simp [notifCount]
    · exact countP_emit_le _ _ _

/-- When the notification stage emits a frame, the flag ends set. -/
theorem notifStep_pos (H : Heuristics) (u : ConnState) :
    0 < notifCount (notifStep H u).2 → (notifStep H u).1.inputNotifSent = true := by
  unfold notifStep
  split
  · intro h
    simp [notifCount] at h
  · cases hm : H.needsUserInput u.rawBuffer
    · intro h
      simp [notifCount] at h
    · intro _
      rfl

/-- The notification stage never emits speech. -/
theorem notifStep_tts_zero (H : Heuristics) (u : ConnState) :
    ttsCount (notifStep H u).2 = 0 := by
  unfold notifStep
  split
  · rfl
  · cases hm : H.needsUserInput u.rawBuffer
    · rfl
    · exact countP_emit_zero _ _ _ rfl

/-- Chunks before the first input are ignored by the tracker. -/
theorem onOutputChunk_pre (H : Heuristics) (s : ConnState) (raw : String)
    (now : Nat) (h : s.userSentAt = 0) : onOutputChunk H s raw now = (s, []) := by
  unfold onOutputChunk
  simp [h]

/-- Chunks past the hard ceiling are ignored by the tracker. -/
theorem onOutputChunk_late (H : Heuristics) (s : ConnState) (raw : String)
    (now : Nat) (h : 120000 < now - s.userSentAt) :
    onOutputChunk H s raw now = (s, []) := by
  unfold onOutputChunk
  by_cases hz : s.userSentAt = 0 <;> simp [hz, h]

/-- Notification bookkeeping of one tracker invocation: at most one
frame, nothing once the flag is set, and a set flag after any frame. -/
theorem chunk_notif (H : Heuristics) (s : ConnState) (d : String) (t : Nat) :
    notifCount (onOutputChunk H s d t).2 ≤ 1 ∧
    (s.inputNotifSent = true →
      notifCount (onOutputChunk H s d t).2 = 0 ∧
      (onOutputChunk H s d t).1.inputNotifSent = true) ∧
    (0 < notifCount (onOutputChunk H s d t).2 →
      (onOutputChunk H s d t).1.inputNotifSent = true) := by
  unfold onOutputChunk
  split
  · exact ⟨by simp [notifCount], fun h => ⟨rfl, h⟩,
      fun h => absurd h (by simp [notifCount])⟩
  · split
    · exact ⟨by simp [notifCount], fun h => ⟨rfl, h⟩,
        fun h => absurd h (by simp [notifCount])⟩
    · refine ⟨notifStep_count_le _ _, ?_, ?_⟩
      · intro h
        have hs : (appendChunk s d).inputNotifSent = true := h
        rw [notifStep_sent H _ hs]
        exact ⟨rfl, by
          rw [(armStep_fst _ _).2.2.2.2]
          exact hs⟩
      · intro h
        rw [(armStep_fst _ _).2.2.2.2]
        exact notifStep_pos H _ h

/-- Speech bookkeeping of one tracker invocation: a chunk never emits
speech itself, and it leaves a settled quiet turn settled and quiet. -/
theorem chunk_tts (H : Heuristics) (s : ConnState) (d : String) (t : Nat) :
    ttsCount (onOutputChunk H s d t).2 = 0 ∧
    (s.ttsDone = true ∧ s.ttsDeadline = none →
      (onOutputChunk H s d t).1.ttsDone = true ∧
      (onOutputChunk H s d t).1.ttsDeadline = none) := by
  unfold onOutputChunk
  split
  · exact ⟨rfl, fun h => h⟩
  · split
    · exact ⟨rfl, fun h => h⟩
    · refine ⟨notifStep_tts_zero _ _, ?_⟩
      rintro ⟨h1, h2⟩
      have ha : (notifStep H (appendChunk s d)).1.ttsDone = true := by
        rw [(notifStep_fst _ _).2.1]
        exact h1
      have hb : (notifStep H (appendChunk s d)).1.ttsDeadline = none := by
        rw [(notifStep_fst _ _).1]
        exact h2
      show (armStep (notifStep H (appendChunk s d)).1 t).ttsDone = true ∧
        (armStep (notifStep H (appendChunk s d)).1 t).ttsDeadline = none
      rw [armStep_done _ t ha]
      exact ⟨ha, hb⟩

/-- Packaging of the notification at-most-once facts for a handler
result that emits no notification and does not clear the flag. -/
theorem notif_easy (a : ConnState) (l : List Effect) (s : ConnState)
    (hz : notifCount l = 0) (hf : a.inputNotifSent = s.inputNotifSent) :
    notifCount l ≤ 1 ∧
    (s.inputNotifSent = true → notifCount l = 0 ∧ a.inputNotifSent = true) ∧
    (0 < notifCount l → a.inputNotifSent = true) :=
  ⟨by omega, fun h => ⟨hz, by rw [hf]; exact h⟩, fun h => absurd h (by omega)⟩

/-- Packaging of the speech at-most-once facts for a handler result
that emits no speech and preserves quietness. -/
theorem tts_easy (a : ConnState) (l : List Effect) (s : ConnState)
    (hz : ttsCount l = 0)
    (hq : s.ttsDone = true ∧ s.ttsDeadline = none →
      a.ttsDone = true ∧ a.ttsDeadline = none) :
    ttsCount l ≤ 1 ∧
    (s.ttsDone = true ∧ s.ttsDeadline = none →
      ttsCount l = 0 ∧ a.ttsDone = true ∧ a.ttsDeadline = none) ∧
    (0 < ttsCount l → a.ttsDone = true ∧ a.ttsDeadline = none) :=
  ⟨by omega, fun h => ⟨hz, hq h⟩, fun h => absurd h (by omega)⟩

/-- Notification bookkeeping of one arbitrary non-input event: at most
one frame, nothing once the flag is set, and a set flag after any
frame. -/
theorem step_notif (H : Heuristics) (s : ConnState) (e : Event)
    (he : isInputEvt e = false) :
    notifCount (step H s e).2 ≤ 1 ∧
    (s.inputNotifSent = true →
      notifCount (step H s e).2 = 0 ∧ (step H s e).1.inputNotifSent = true) ∧
    (0 < notifCount (step H s e).2 → (step H s e).1.inputNotifSent = true) := by
  cases e with
  | stdout d t =>
    have hz : notifCount (emit s (Frame.output d)) = 0 :=
      countP_emit_zero _ _ _ rfl
    have he2 : notifCount (step H s (Event.stdout d t)).2 =
        notifCount (onOutputChunk H s d t).2 := by
      show notifCount (emit s (Frame.output d) ++ (onOutputChunk H s d t).2) = _
      rw [notifCount_append, hz, Nat.zero_add]
    have he1 : (step H s (Event.stdout d t)).1 = (onOutputChunk H s d t).1 := rfl
    rw [he2, he1]
    exact chunk_notif H s d t
  | stderr d =>
    exact notif_easy _ _ s (countP_emit_zero _ _ _ rfl) rfl
  | msg m t =>
    cases m with
    | input data => simp [isInputEvt] at he
    | resize cols rows =>
      refine notif_easy _ _ s ?_ ?_
      · show notifCount (onResizeMsg s cols rows).2 = 0
        unfold onResizeMsg startSession
        split
        · split
          · rfl
          · show notifCount (Effect.spawn _ _ :: emit s Frame.ready) = 0
            have hz : notifCount (emit s Frame.ready) = 0 :=
              countP_emit_zero _ _ _ rfl
            simp [notifCount, List.countP_cons, isNotifEffect] at hz ⊢
            exact hz
        · rfl
      · show (onResizeMsg s cols rows).1.inputNotifSent = s.inputNotifSent
        unfold onResizeMsg startSession
        split
        · split <;> rfl
        · rfl
    | malformed raw =>
      refine notif_easy _ _ s ?_ ?_
      · show notifCount (if s.child = true then (s, [Effect.stdinWrite raw])
          else (s, [])).2 = 0
        split <;> rfl
      · show (if s.child = true then (s, [Effect.stdinWrite raw])
          else (s, [])).1.inputNotifSent = s.inputNotifSent
        split <;> rfl
  | childExit code =>
    exact notif_easy _ _ s (countP_emit_zero _ _ _ rfl) rfl
  | childError emsg =>
    exact notif_easy _ _ s (countP_emit_zero _ _ _ rfl) rfl
  | ttsFire t ok =>
    refine notif_easy _ _ s ?_ ?_
    · show notifCount (if s.ttsDeadline = some t then ttsTimerFire H s ok
        else (s, [])).2 = 0
      split
      · unfold ttsTimerFire
        split
        · show notifCount (if ok = true then emit s (Frame.ttsAudio _) else []) = 0
          split
          · exact countP_emit_zero _ _ _ rfl
          · rfl
        · rfl
      · rfl
    · show (if s.ttsDeadline = some t then ttsTimerFire H s ok
        else (s, [])).1.inputNotifSent = s.inputNotifSent
      split
      · unfold ttsTimerFire
        split <;> rfl
      · rfl
  | close =>
    refine notif_easy _ _ s ?_ ?_
    · show notifCount (wsClose s).2 = 0
      unfold wsClose killSession
      split <;> rfl
    · show (wsClose s).1.inputNotifSent = s.inputNotifSent
      unfold wsClose killSession
      split <;> rfl

/-- Speech bookkeeping of one arbitrary non-input event: at most one
frame, nothing once the turn is settled with no pending timer, and a
settled quiet turn after any frame. -/
theorem step_tts (H : Heuristics) (s : ConnState) (e : Event)
    (he : isInputEvt e = false) :
    ttsCount (step H s e).2 ≤ 1 ∧
    (s.ttsDone = true ∧ s.ttsDeadline = none →
      ttsCount (step H s e).2 = 0 ∧
      (step H s e).1.ttsDone = true ∧ (step H s e).1.ttsDeadline = none) ∧
    (0 < ttsCount (step H s e).2 →
      (step H s e).1.ttsDone = true ∧ (step H s e).1.ttsDeadline = none) := by
  cases e with
  | stdout d t =>
    have hc := chunk_tts H s d t
    have hz : ttsCount (emit s (Frame.output d)) = 0 :=
      countP_emit_zero _ _ _ rfl
    refine tts_easy _ _ s ?_ ?_
    · show ttsCount (emit s (Frame.output d) ++ (onOutputChunk H s d t).2) = 0
      rw [ttsCount_append, hz, hc.1]
    · exact hc.2
  | stderr d =>
    exact tts_easy _ _ s (countP_emit_zero _ _ _ rfl) (fun h => h)
  | msg m t =>
    cases m with
    | input data => simp [isInputEvt] at he
    | resize cols rows =>
      refine tts_easy _ _ s ?_ ?_
      · show ttsCount (onResizeMsg s cols rows).2 = 0
        unfold onResizeMsg startSession
        split
        · split
          · rfl
          · show ttsCount (Effect.spawn _ _ :: emit s Frame.ready) = 0
            have hz : ttsCount (emit s Frame.ready) = 0 :=
              countP_emit_zero _ _ _ rfl
            simp [ttsCount, List.countP_cons, isTtsEffect] at hz ⊢
            exact hz
        · rfl
      · show s.ttsDone = true ∧ s.ttsDeadline = none →
          (onResizeMsg s cols rows).1.ttsDone = true ∧
          (onResizeMsg s cols rows).1.ttsDeadline = none
        unfold onResizeMsg startSession
        split
        · split
          · exact fun h => h
          · exact fun h => h
        · exact fun h => h
    | malformed raw =>
      refine tts_easy _ _ s ?_ ?_
      · show ttsCount (if s.child = true then (s, [Effect.stdinWrite raw])
          else (s, [])).2 = 0
        split <;> rfl
      · show s.ttsDone = true ∧ s.ttsDeadline = none →
          (if s.child = true then (s, [Effect.stdinWrite raw])
            else (s, [])).1.ttsDone = true ∧
          (if s.child = true then (s, [Effect.stdinWrite raw])
            else (s, [])).1.ttsDeadline = none
        split <;> exact fun h => h
  | childExit code =>
    exact tts_easy _ _ s (countP_emit_zero _ _ _ rfl) (fun h => h)
  | childError emsg =>
    exact tts_easy _ _ s (countP_emit_zero _ _ _ rfl) (fun h => h)
  | ttsFire t ok =>
    by_cases hg : s.ttsDeadline = some t
    · have hred : step H s (Event.ttsFire t ok) = ttsTimerFire H s ok := by
        show (if s.ttsDeadline = some t then ttsTimerFire H s ok else (s, [])) = _
        rw [if_pos hg]
      rw [hred]
      unfold ttsTimerFire
      split
      · refine ⟨?_, ?_, ?_⟩
        · show ttsCount (if ok = true then emit s (Frame.ttsAudio _) else []) ≤ 1
          split
          · exact countP_emit_le _ _ _
          · simp [ttsCount]
        · intro hq
          rw [hq.2] at hg
          exact Option.noConfusion hg
        · exact fun _ => ⟨rfl, rfl⟩
      · refine ⟨by simp [ttsCount], ?_, fun h => absurd h (by simp [ttsCount])⟩
        intro hq
        rw [hq.2] at hg
        exact Option.noConfusion hg
    · have hred : step H s (Event.ttsFire t ok) = (s, []) := by
        show (if s.ttsDeadline = some t then ttsTimerFire H s ok else (s, [])) = _
        rw [if_neg hg]
      rw [hred]
      exact tts_easy s [] s rfl (fun h => h)
  | close =>
    refine tts_easy _ _ s ?_ ?_
    · show ttsCount (wsClose s).2 = 0
      unfold wsClose killSession
      split <;> rfl
    · show s.ttsDone = true ∧ s.ttsDeadline = none →
        (wsClose s).1.ttsDone = true ∧ (wsClose s).1.ttsDeadline = none
      unfold wsClose killSession
      split <;> exact fun h => h

theorem runEvents_cons_fst (H : Heuristics) (s : ConnState) (e : Event)
    (es : List Event) :
    (runEvents H s (e :: es)).1 = (runEvents H (step H s e).1 es).1 := rfl

theorem runEvents_cons_snd (H : Heuristics) (s : ConnState) (e : Event)
    (es : List Event) :
    (runEvents H s (e :: es)).2 =
      (step H s e).2 ++ (runEvents H (step H s e).1 es).2 := rfl

/-- Over any input-free event suffix, at most one notification frame is
delivered, and none at all once the flag is set. -/
theorem runEvents_notif (H : Heuristics) (events : List Event) :
    ∀ s : ConnState, (∀ e ∈ events, isInputEvt e = false) →
      notifCount (runEvents H s events).2 ≤ 1 ∧
      (s.inputNotifSent = true → notifCount (runEvents H s events).2 = 0) := by
  induction events with
  | nil =>
    intro s _
    exact ⟨by simp [runEvents, notifCount], fun _ => rfl⟩
  | cons e es ih =>
    intro s h
    have he : isInputEvt e = false := h e (List.mem_cons_self e es)
    have hes : ∀ x ∈ es, isInputEvt x = false :=
      fun x hx => h x (List.mem_cons_of_mem e hx)
    have hs := step_notif H s e he
    have hrec := ih (step H s e).1 hes
    rw [runEvents_cons_snd, notifCount_append]
    constructor
    · rcases Nat.eq_zero_or_pos (notifCount (step H s e).2) with ha | ha
      · have hb := hrec.1
        omega
      · have hb := hrec.2 (hs.2.2 ha)
        have h1 := hs.1
        omega
    · intro hsent
      have h1 := hs.2.1 hsent
      have hb := hrec.2 h1.2
      omega

/-- Over any input-free event suffix, at most one speech frame is
delivered, and none at all once the turn is settled with no pending
timer. -/
theorem runEvents_tts (H : Heuristics) (events : List Event) :
    ∀ s : ConnState, (∀ e ∈ events, isInputEvt e = false) →
      ttsCount (runEvents H s events).2 ≤ 1 ∧
      (s.ttsDone = true ∧ s.ttsDeadline = none →
        ttsCount (runEvents H s events).2 = 0) := by
  induction events with
  | nil =>
    intro s _
    exact ⟨by simp [runEvents, ttsCount], fun _ => rfl⟩
  | cons e es ih =>
    intro s h
    have he : isInputEvt e = false := h e (List.mem_cons_self e es)
    have hes : ∀ x ∈ es, isInputEvt x = false :=
      fun x hx => h x (List.mem_cons_of_mem e hx)
    have hs := step_tts H s e he
    have hrec := ih (step H s e).1 hes
    rw [runEvents_cons_snd, ttsCount_append]
    constructor
    · rcases Nat.eq_zero_or_pos (ttsCount (step H s e).2) with ha | ha
      · have hb := hrec.1
        omega
      · have hb := hrec.2 (hs.2.2 ha)
        have h1 := hs.1
        omega
    · intro hq
      have h1 := hs.2.1 hq
      have hb := hrec.2 ⟨h1.2.1, h1.2.2⟩
      omega

/-- One non-input step of a past-ceiling turn with no pending timer:
no speech, still no pending timer, turn start unchanged. -/
theorem step_late (H : Heuristics) (s : ConnState) (e : Event)
    (hl : lateOk s.userSentAt e) (hd : s.ttsDeadline = none) :
    ttsCount (step H s e).2 = 0 ∧
    (step H s e).1.ttsDeadline = none ∧
    (step H s e).1.userSentAt = s.userSentAt := by
  cases e with
  | stdout d t =>
    have hp := onOutputChunk_late H s d t hl
    refine ⟨?_, ?_, ?_⟩
    · show ttsCount (emit s (Frame.output d) ++ (onOutputChunk H s d t).2) = 0
      rw [hp]
      show ttsCount (emit s (Frame.output d) ++ []) = 0
      rw [List.append_nil]
      exact countP_emit_zero _ _ _ rfl
    · show (onOutputChunk H s d t).1.ttsDeadline = none
      rw [hp]
      exact hd
    · show (onOutputChunk H s d t).1.userSentAt = s.userSentAt
      rw [hp]
  | stderr d =>
    exact ⟨countP_emit_zero _ _ _ rfl, hd, rfl⟩
  | msg m t =>
    cases m with
    | input data => exact hl.elim
    | resize cols rows =>
      show ttsCount (onResizeMsg s cols rows).2 = 0 ∧
        (onResizeMsg s cols rows).1.ttsDeadline = none ∧
        (onResizeMsg s cols rows).1.userSentAt = s.userSentAt
      unfold onResizeMsg startSession
      split
      · split
        · exact ⟨rfl, hd, rfl⟩
        · refine ⟨?_, hd, rfl⟩
          show ttsCount (Effect.spawn _ _ :: emit s Frame.ready) = 0
          have hz : ttsCount (emit s Frame.ready) = 0 :=
            countP_emit_zero _ _ _ rfl
          simp [ttsCount, List.countP_cons, isTtsEffect] at hz ⊢
          exact hz
      · exact ⟨rfl, hd, rfl⟩
    | malformed raw =>
      show ttsCount (if s.child = true then (s, [Effect.stdinWrite raw])
          else (s, [])).2 = 0 ∧
        (if s.child = true then (s, [Effect.stdinWrite raw])
          else (s, [])).1.ttsDeadline = none ∧
        (if s.child = true then (s, [Effect.stdinWrite raw])
          else (s, [])).1.userSentAt = s.userSentAt
      split <;> exact ⟨rfl, hd, rfl⟩
  | childExit code =>
    exact ⟨countP_emit_zero _ _ _ rfl, hd, rfl⟩
  | childError emsg =>
    exact ⟨countP_emit_zero _ _ _ rfl, hd, rfl⟩
  | ttsFire t ok =>
    have hg : ¬ (s.ttsDeadline = some t) := by
      rw [hd]
      exact fun h => Option.noConfusion h
    have hred : step H s (Event.ttsFire t ok) = (s, []) := by
      show (if s.ttsDeadline = some t then ttsTimerFire H s ok else (s, [])) = _
      rw [if_neg hg]
    rw [hred]
    exact ⟨rfl, hd, rfl⟩
  | close =>
    show ttsCount (wsClose s).2 = 0 ∧ (wsClose s).1.ttsDeadline = none ∧
      (wsClose s).1.userSentAt = s.userSentAt
    unfold wsClose killSession
    split <;> exact ⟨rfl, hd, rfl⟩

/-- A past-ceiling turn with no pending timer never delivers speech over
any suffix of late chunks, fire attempts and other non-input events. -/
theorem runEvents_late (H : Heuristics) (events : List Event) :
    ∀ s : ConnState, s.ttsDeadline = none →
      (∀ e ∈ events, lateOk s.userSentAt e) →
      ttsCount (runEvents H s events).2 = 0 := by
  induction events with
  | nil =>
    intro s _ _
    rfl
  | cons e es ih =>
    intro s hd h
    have hl := h e (List.mem_cons_self e es)
    have hs := step_late H s e hl hd
    have hes : ∀ x ∈ es, lateOk (step H s e).1.userSentAt x := by
      intro x hx
      rw [hs.2.2]
      exact h x (List.mem_cons_of_mem e hx)
    have hrec := ih (step H s e).1 hs.2.1 hes
    rw [runEvents_cons_snd, ttsCount_append, hs.1, hrec]

/-!
Behavioral lemmas for the seven normalizer passes.
-/

/-- A character other than escape passes the OSC pass unchanged. -/
theorem stripOsc_skip (c : Char) (l : List Char) (hc : c ≠ ESC) :
    stripOsc (c :: l) = c :: stripOsc l := by
  simp [stripOsc, oscGo, hc]

/-- Inside a candidate OSC body, bell-free characters are consumed and
the closing bell returns to top level. -/
theorem oscGo_body (rest : List Char) :
    ∀ (body p : List Char), (∀ b ∈ body, b ≠ BEL) →
      oscGo (OscMode.body p) (body ++ BEL :: rest) = oscGo OscMode.normal rest := by
  intro body
  induction body with
  | nil =>
    intro p _
    simp [oscGo]
  | cons b bs ih =>
    intro p h
    have hb : b ≠ BEL := h b (List.mem_cons_self b bs)
    simp only [List.cons_append, oscGo, if_neg hb]
    exact ih (b :: p) (fun x hx => h x (List.mem_cons_of_mem b hx))

/-- The OSC pass removes a complete operating-system-command sequence. -/
theorem stripOsc_removes (body rest : List Char) (h : ∀ b ∈ body, b ≠ BEL) :
    stripOsc (ESC :: ']' :: (body ++ BEL :: rest)) = stripOsc rest := by
  show oscGo OscMode.normal (ESC :: ']' :: (body ++ BEL :: rest)) =
    oscGo OscMode.normal rest
  simp only [oscGo, if_pos rfl]
  exact oscGo_body rest body [] h

/-- A character other than escape passes a control-sequence pass
unchanged. -/
theorem csiGo_skip (finalP : Char → Bool) (repl : List Char) (c : Char)
    (l : List Char) (hc : c ≠ ESC) :
    csiGo finalP repl CsiMode.normal (c :: l) =
      c :: csiGo finalP repl CsiMode.normal l := by
  simp [csiGo, hc]

/-- Inside the parameter run of a control sequence, parameter bytes are
consumed and a final byte commits the match. -/
theorem csiGo_params (finalP : Char → Bool) (repl : List Char) (f : Char)
    (rest : List Char) (hf : finalP f = true) (hnp : isCsiParam f = false) :
    ∀ (ps p : List Char), (∀ x ∈ ps, isCsiParam x = true) →
      csiGo finalP repl (CsiMode.params p) (ps ++ f :: rest) =
        repl ++ csiGo finalP repl CsiMode.normal rest := by
  intro ps
  induction ps with
  | nil =>
    intro p _
    simp [csiGo, hnp, hf]
  | cons x xs ih =>
    intro p h
    have hx : isCsiParam x = true := h x (List.mem_cons_self x xs)
    simp only [List.cons_append, csiGo, if_pos hx]
    exact ih (x :: p) (fun y hy => h y (List.mem_cons_of_mem x hy))

/-- A control-sequence pass replaces a complete match by its
replacement. -/
theorem csiGo_removes (finalP : Char → Bool) (repl : List Char)
    (ps : List Char) (f : Char) (rest : List Char)
    (hps : ∀ x ∈ ps, isCsiParam x = true) (hf : finalP f = true)
    (hnp : isCsiParam f = false) :
    csiGo finalP repl CsiMode.normal (ESC :: '[' :: (ps ++ f :: rest)) =
      repl ++ csiGo finalP repl CsiMode.normal rest := by
  simp only [csiGo, if_pos rfl]
  exact csiGo_params finalP repl f rest hf hnp ps [] hps

/-- The six cursor-relocation finals are not parameter bytes. -/
theorem cursorFinal_not_param (f : Char) (hf : isCursorFinal f = true) :
    isCsiParam f = false := by
  simp only [isCursorFinal, Bool.or_eq_true, beq_iff_eq] at hf
  rcases hf with ((((h | h) | h) | h) | h) | h <;> subst h <;> decide

/-- Letters are not parameter bytes. -/
theorem alphaFinal_not_param (f : Char) (hf : isAlphaFinal f = true) :
    isCsiParam f = false := by
  simp only [isAlphaFinal, decide_eq_true_eq] at hf
  simp only [isCsiParam, decide_eq_false_iff_not]
  omega

/-- Final bytes of the generic escape pass are not intermediate bytes. -/
theorem escFinal_not_inter (f : Char) (hf : isEscFinal f = true) :
    isInterByte f = false := by
  simp only [isEscFinal, decide_eq_true_eq] at hf
  simp only [isInterByte, decide_eq_false_iff_not]
  omega

/-- The cursor-relocation pass replaces a complete match by one space. -/
theorem cursorToSpace_removes (ps : List Char) (f : Char) (rest : List Char)
    (hps : ∀ x ∈ ps, isCsiParam x = true) (hf : isCursorFinal f = true) :
    cursorToSpace (ESC :: '[' :: (ps ++ f :: rest)) = ' ' :: cursorToSpace rest :=
  csiGo_removes isCursorFinal [' '] ps f rest hps hf (cursorFinal_not_param f hf)

/-- The parameterized-control-sequence pass removes a complete match. -/
theorem stripCsi_removes (qs : List Char) (g : Char) (rest : List Char)
    (hqs : ∀ x ∈ qs, isCsiParam x = true) (hg : isAlphaFinal g = true) :
    stripCsi (ESC :: '[' :: (qs ++ g :: rest)) = stripCsi rest :=
  csiGo_removes isAlphaFinal [] qs g rest hqs hg (alphaFinal_not_param g hg)

/-- A character other than escape passes the character-set pass
unchanged. -/
theorem stripCharset_skip (c : Char) (l : List Char) (hc : c ≠ ESC) :
    stripCharset (c :: l) = c :: stripCharset l := by
  simp [stripCharset, charsetGo, hc]

/-- The character-set pass removes a complete designation sequence. -/
theorem stripCharset_removes (d e : Char) (rest : List Char)
    (hd : isParenByte d = true) (he : isUpperDigit e = true) :
    stripCharset (ESC :: d :: e :: rest) = stripCharset rest := by
  show charsetGo CsMode.normal (ESC :: d :: e :: rest) = charsetGo CsMode.normal rest
  simp [charsetGo, hd, he]

/-- A character other than escape passes the generic escape pass
unchanged. -/
theorem stripEsc_skip (c : Char) (l : List Char) (hc : c ≠ ESC) :
    stripEsc (c :: l) = c :: stripEsc l := by
  simp [stripEsc, escGo, hc]

/-- Inside the intermediate run of a generic escape sequence,
intermediate bytes are consumed and a final byte commits the match. -/
theorem escGo_inter (f : Char) (rest : List Char) (hf : isEscFinal f = true)
    (hni : isInterByte f = false) :
    ∀ (inter p : List Char), (∀ x ∈ inter, isInterByte x = true) →
      escGo (EscMode.inter p) (inter ++ f :: rest) = escGo EscMode.normal rest := by
  intro inter
  induction inter with
  | nil =>
    intro p _
    simp [escGo, hni, hf]
  | cons x xs ih =>
    intro p h
    have hx : isInterByte x = true := h x (List.mem_cons_self x xs)
    simp only [List.cons_append, escGo, if_pos hx]
    exact ih (x :: p) (fun y hy => h y (List.mem_cons_of_mem x hy))

/-- The generic escape pass removes a complete escape sequence. -/
theorem stripEsc_removes (inter : List Char) (f : Char) (rest : List Char)
    (hi : ∀ x ∈ inter, isInterByte x = true) (hf : isEscFinal f = true) :
    stripEsc (ESC :: (inter ++ f :: rest)) = stripEsc rest := by
  show escGo EscMode.normal (ESC :: (inter ++ f :: rest)) = escGo EscMode.normal rest
  simp only [escGo, if_pos rfl]
  exact escGo_inter f rest hf (escFinal_not_inter f hf) inter [] hi

/-- The control-byte pass removes exactly the bytes of its ranges. -/
theorem stripCtrl_removes (c : Char) (l : List Char)
    (h : isStrippedCtrl c = true) : stripCtrl (c :: l) = stripCtrl l := by
  simp [stripCtrl, h]

/-- The control-byte pass keeps the newline. -/
theorem stripCtrl_keeps_newline (l : List Char) :
    stripCtrl ('\n' :: l) = '\n' :: stripCtrl l := by
  simp [stripCtrl, isStrippedCtrl]

/-- A carriage return directly followed by a line feed becomes a single
line feed. -/
theorem crToLf_crlf (l : List Char) :
    crToLf ('\x0d' :: '\n' :: l) = '\n' :: crToLf l := by
  simp [crToLf, crGo]

/-- A carriage return not followed by a line feed becomes a line feed. -/
theorem crToLf_cr (c : Char) (l : List Char) (h : c ≠ '\n') :
    crToLf ('\x0d' :: c :: l) = '\n' :: crToLf (c :: l) := by
  by_cases hcr : c = '\x0d'
  · subst hcr
    simp [crToLf, crGo]
  · simp [crToLf, crGo, h, hcr]

/-- A trailing carriage return becomes a line feed. -/
theorem crToLf_single : crToLf ['\x0d'] = ['\n'] := rfl

/-- Characters other than the carriage return pass the last pass
unchanged. -/
theorem crToLf_skip (c : Char) (l : List Char) (h : c ≠ '\x0d') :
    crToLf (c :: l) = c :: crToLf l := by
  simp [crToLf, crGo, h]

/-!
Claims about the relay and the handshake.
-/

/-- C1 counterexample.  The claim states that every chunk read from
stdout or from stderr is both relayed and handed to the
turn-interpretation logic.  Handing a chunk to the tracker in a live
turn appends it to the turn buffer (second conjunct, the stdout path at
the same state and time), but the stderr handler returns the state
untouched (first conjunct): stderr chunks are relayed yet never reach
the interpretation logic, so the claim is false for the stderr chunk x
arriving in the turn that started at time 1000. -/
theorem claim1_stderr_not_interpreted_cex :
    (onStderrData sActive xStr).1 = sActive ∧
    (onOutputChunk hNone sActive xStr 1000).1.rawBuffer = xStr := by
  decide

/-- C1 amended: every stdout chunk is relayed verbatim as an output
frame, placed before any interpretation effect and unaffected by the
interpretation outcome (the statement holds for every Heuristics), and
the same chunk is handed to the turn tracker; every stderr chunk is
relayed verbatim but is not handed to the turn tracker. -/
theorem claim1_passthrough_amended (H : Heuristics) (s : ConnState)
    (d : String) (now : Nat) (hw : s.wsOpen = true) :
    onStdoutData H s d now =
      ((onOutputChunk H s d now).1,
        Effect.frame (Frame.output d) :: (onOutputChunk H s d now).2) ∧
    onStderrData s d = (s, [Effect.frame (Frame.output d)]) := by
  constructor
  · simp [onStdoutData, emit, hw]
  · simp [onStderrData, emit, hw]

/-- C1 witness: the amended statement at a concrete open connection,
chunk and time. -/
theorem claim1_passthrough_witness :
    onStdoutData hNone sActive xStr 1000 =
      ((onOutputChunk hNone sActive xStr 1000).1,
        Effect.frame (Frame.output xStr) :: (onOutputChunk hNone sActive xStr 1000).2) ∧
    onStderrData sActive xStr = (sActive, [Effect.frame (Frame.output xStr)]) :=
  claim1_passthrough_amended hNone sActive xStr 1000 (by decide)

/-- C8: when an auth token is configured and the query token of the
connecting client does not match it, the handshake sends the error frame
and closes the channel with code 4001; the rejected outcome carries no
connection state and no spawn effect, so no Session is ever created for
that connection. -/
theorem claim8_auth_reject (tok : String) (req : Option String)
    (h1 : tok ≠ "") (h2 : req ≠ some tok) :
    onConnection tok req =
      ConnOutcome.rejected [Frame.error authErrMsg] 4001 unauthorizedMsg := by
  simp [onConnection, h1, h2]

/-- C8 witness: a configured token and an absent query token. -/
theorem claim8_auth_reject_witness :
    onConnection secretTok none =
      ConnOutcome.rejected [Frame.error authErrMsg] 4001 unauthorizedMsg :=
  claim8_auth_reject secretTok none (by decide) (by decide)

/-- C10: an output chunk arriving while the turn-start timestamp is
still unset is relayed as an output frame but the tracker state is
untouched and interpretation produces no effect at all, for every choice
of the heuristics: the startup banner can neither notify nor speak. -/
theorem claim10_preinput_inert (H : Heuristics) (s : ConnState)
    (d : String) (now : Nat) (h : s.userSentAt = 0) :
    onStdoutData H s d now = (s, emit s (Frame.output d)) ∧
    onOutputChunk H s d now = (s, []) := by
  constructor
  · simp [onStdoutData, onOutputChunk, h]
  · simp [onOutputChunk, h]

/-- C10 witness: the freshly spawned connection before any input. -/
theorem claim10_preinput_inert_witness :
    onStdoutData hNone sLive xStr 7 = (sLive, emit sLive (Frame.output xStr)) ∧
    onOutputChunk hNone sLive xStr 7 = (sLive, []) :=
  claim10_preinput_inert hNone sLive xStr 7 (by decide)

/-!
Claims about the completion-timer debouncing.
-/

/-- C3: while a turn is unsettled (started, inside the hard ceiling, and
with no speech decision yet), every arriving chunk cancels the pending
completion timer and restarts the quiescence window: after the chunk no
fire is possible at any time before now + 2000, and a fire is possible
only at exactly now + 2000 and only when the required number of
end-of-turn prompt markers has appeared in the accumulated buffer.  In a
trace whose gaps between consecutive chunks stay below the window, the
next chunk arrives before any fire becomes possible, so no extraction
fires. -/
theorem claim3_quiescence (H : Heuristics) (s : ConnState) (raw : String)
    (now : Nat) (h1 : s.userSentAt ≠ 0) (h2 : now - s.userSentAt ≤ 120000)
    (h3 : s.ttsDone = false) :
    (∀ t, t < now + 2000 → ¬ fireEnabled (onOutputChunk H s raw now).1 t) ∧
    (∀ t, fireEnabled (onOutputChunk H s raw now).1 t →
      t = now + 2000 ∧
      neededPrompts s.isFirstMessage ≤ promptCount (s.rawBuffer ++ raw)) := by
  have h2' : ¬ 120000 < now - s.userSentAt := Nat.not_lt.mpr h2
  rw [onOutputChunk_active H s raw now h1 h2']
  have hn := notifStep_fst H (appendChunk s raw)
  have hdone : (notifStep H (appendChunk s raw)).1.ttsDone = false := by
    rw [hn.2.1]; exact h3
  have hd := armStep_deadline (notifStep H (appendChunk s raw)).1 now hdone
  rw [hn.2.2.1, hn.2.2.2.1] at hd
  have hbuf : (appendChunk s raw).rawBuffer = s.rawBuffer ++ raw := rfl
  have hfst : (appendChunk s raw).isFirstMessage = s.isFirstMessage := rfl
  rw [hbuf, hfst] at hd
  constructor
  · intro t ht hfe
    have : (armStep (notifStep H (appendChunk s raw)).1 now).ttsDeadline = some t := hfe
    rw [hd] at this
    split at this
    · exact Option.noConfusion this
    · have := Option.some.inj this
      omega
  · intro t hfe
    have : (armStep (notifStep H (appendChunk s raw)).1 now).ttsDeadline = some t := hfe
    rw [hd] at this
    split at this
    · exact Option.noConfusion this
    · have ht := Option.some.inj this
      refine ⟨ht.symm, ?_⟩
      omega

/-- C3 witness: a chunk at time 5000 carrying two prompt markers inside
the first turn arms the timer for 7000 and the theorem confirms that a
fire at 7000 implies the marker count condition. -/
theorem claim3_quiescence_witness :
    7000 = 5000 + 2000 ∧
    neededPrompts sActive.isFirstMessage ≤
      promptCount (sActive.rawBuffer ++ twoPrompts) :=
  (claim3_quiescence hNone sActive twoPrompts 5000 (by decide) (by decide)
    (by decide)).2 7000 (by decide)

/-- C5 counterexample.  The claim states that for every turn after the
first a single prompt-marker occurrence arms the completion timer.  In
the trace below the first turn ends with no speech dispatched, the
second turn receives a chunk carrying exactly one marker, and yet no
timer is armed, because the extra-occurrence requirement is tied to the
never-yet-dispatched flag rather than to the first turn. -/
theorem claim5_second_turn_cex :
    (runEvents hNone sLive secondTurnTrace).1.ttsDeadline = none ∧
    (runEvents hNone sLive secondTurnTrace).1.isFirstMessage = true ∧
    promptCount (runEvents hNone sLive secondTurnTrace).1.rawBuffer = 1 := by
  decide

/-- C5 amended: the completion timer of an unsettled in-ceiling turn is
armed exactly when the buffer shows at least neededPrompts occurrences
of the marker, where neededPrompts is two while the first-message flag
is set and one afterwards; the flag starts true, is untouched by chunks
and by inputs, and is cleared exactly when a completion fire extracts an
answer above the minimum length, i.e. on the first successful speech
dispatch rather than at the end of the first turn. -/
theorem claim5_first_turn_amended (H : Heuristics) (s : ConnState)
    (raw d : String) (now now2 : Nat) (ok : Bool) (h1 : s.userSentAt ≠ 0)
    (h2 : now - s.userSentAt ≤ 120000) (h3 : s.ttsDone = false) :
    ((onOutputChunk H s raw now).1.ttsDeadline = some (now + 2000) ↔
      neededPrompts s.isFirstMessage ≤ promptCount (s.rawBuffer ++ raw)) ∧
    (onOutputChunk H s raw now).1.isFirstMessage = s.isFirstMessage ∧
    neededPrompts true = 2 ∧ neededPrompts false = 1 ∧
    initState.isFirstMessage = true ∧
    (onMessage s (InMsg.input d) now2).1.isFirstMessage = s.isFirstMessage ∧
    (ttsTimerFire H s ok).1.isFirstMessage =
      (if 5 < (H.extractAnswer s.lastUserText s.rawBuffer).length then false
       else s.isFirstMessage) := by
  have h2' : ¬ 120000 < now - s.userSentAt := Nat.not_lt.mpr h2
  have hn := notifStep_fst H (appendChunk s raw)
  have hdone : (notifStep H (appendChunk s raw)).1.ttsDone = false := by
    rw [hn.2.1]; exact h3
  have hd := armStep_deadline (notifStep H (appendChunk s raw)).1 now hdone
  have hbuf : (notifStep H (appendChunk s raw)).1.rawBuffer = s.rawBuffer ++ raw :=
    hn.2.2.1
  have hfst : (notifStep H (appendChunk s raw)).1.isFirstMessage = s.isFirstMessage :=
    hn.2.2.2.1
  rw [hbuf, hfst] at hd
  refine ⟨?_, ?_, rfl, rfl, rfl, ?_, ?_⟩
  · rw [onOutputChunk_active H s raw now h1 h2', hd]
    constructor
    · intro hsome
      split at hsome
      · exact Option.noConfusion hsome
      · omega
    · intro hle
      split
      · omega
      · rfl
  · rw [onOutputChunk_active H s raw now h1 h2']
    rw [(armStep_fst (notifStep H (appendChunk s raw)).1 now).1]
    exact hfst
  · show (onInputMsg s d now2).1.isFirstMessage = s.isFirstMessage
    unfold onInputMsg
    split
    · rfl
    · split <;> rfl
  · unfold ttsTimerFire
    split <;> rfl

/-- C5 witness: in the first turn a chunk carrying two markers arms the
timer for one window after its arrival. -/
theorem claim5_first_turn_witness :
    (onOutputChunk hNone sActive twoPrompts 5000).1.ttsDeadline = some 7000 :=
  ((claim5_first_turn_amended hNone sActive twoPrompts userA 5000 1 true
    (by decide) (by decide) (by decide)).1).mpr (by decide)

/-!
Claims about session lifecycle and teardown.
-/

/-- C6 counterexample.  The claim states that after the backing process
exits, the cleared session lets a future user input spawn a fresh
backing process.  After the exit below, the input frame is dropped
entirely: no spawn effect, no write, no new session — only a resize
frame can respawn. -/
theorem claim6_input_no_respawn_cex :
    (onChildExit sLive (some 0)).2 = [Effect.frame (Frame.exitF (some 0))] ∧
    (onChildExit sLive (some 0)).1.child = false ∧
    onMessage (onChildExit sLive (some 0)).1 (InMsg.input lsCmd) 5 =
      ((onChildExit sLive (some 0)).1, []) := by
  decide

/-- C6 amended: process exit sends the exit frame carrying the status
and clears the session handle; with no live session a later resize
request with nonzero geometry spawns a fresh backing process, while a
later input frame is ignored. -/
theorem claim6_exit_amended (s s2 : ConnState) (code : Option Int) (d : String)
    (now cols rows : Nat) (h2 : s2.child = false) (hc : cols ≠ 0) (hr : rows ≠ 0) :
    onChildExit s code = ({ s with child := false }, emit s (Frame.exitF code)) ∧
    onMessage s2 (InMsg.input d) now = (s2, []) ∧
    onMessage s2 (InMsg.resize cols rows) now =
      ({ s2 with child := true }, Effect.spawn cols rows :: emit s2 Frame.ready) := by
  refine ⟨rfl, ?_, ?_⟩
  · show onInputMsg s2 d now = (s2, [])
    unfold onInputMsg
    simp [h2]
  · show onResizeMsg s2 cols rows = _
    unfold onResizeMsg startSession
    simp [h2, hc, hr]

/-- C6 witness: the amended statement at a live session that exits and a
fresh connection state receiving an input and a resize. -/
theorem claim6_exit_witness :
    onChildExit sLive (some 0) =
      ({ sLive with child := false }, emit sLive (Frame.exitF (some 0))) ∧
    onMessage initState (InMsg.input lsCmd) 5 = (initState, []) ∧
    onMessage initState (InMsg.resize 100 30) 5 =
      ({ initState with child := true },
        Effect.spawn 100 30 :: emit initState Frame.ready) :=
  claim6_exit_amended sLive initState (some 0) lsCmd 5 100 30 (by decide)
    (by decide) (by decide)

/-- C7 counterexample.  The claim states that closing the connection
cancels all pending timers including the quiescence and completion
timer.  Closing a connection with a pending completion deadline leaves
that deadline pending: the close handler clears only the keepalive
interval and the idle timer. -/
theorem claim7_tts_timer_survives_cex :
    (wsClose sPendingTts).1.ttsDeadline = some 7000 := by
  decide

/-- C7 amended: on close the keepalive interval and the idle timer are
cancelled and the session is terminated by SIGTERM exactly when one is
live; the close path is idempotent and safe with no session; the pending
completion timer, however, is not cancelled by close (its later firing
sends nothing because every send is gated on the socket being open). -/
theorem claim7_close_amended (s sd : ConnState) (hch : s.child = true)
    (hd : sd.child = false) :
    (wsClose s).1.pingActive = false ∧
    (wsClose s).1.idleTimer = false ∧
    (wsClose s).1.child = false ∧
    (wsClose s).2 = [Effect.kill sigterm] ∧
    (wsClose s).1.ttsDeadline = s.ttsDeadline ∧
    wsClose (wsClose s).1 = ((wsClose s).1, []) ∧
    wsClose sd = ({ sd with pingActive := false, wsOpen := false,
                            idleTimer := false }, []) := by
  unfold wsClose killSession
  simp [hch, hd]

/-!
Claims about per-turn at-most-once delivery and abandonment.
-/

/-- C2: over any event suffix containing no new user input (so within
one turn), at most one input-needed frame and at most one tts-audio
frame are delivered, for every start state, every heuristic outcome,
every external synthesis outcome, and however many output chunks and
timer fires occur. -/
theorem claim2_at_most_once (H : Heuristics) (s : ConnState)
    (events : List Event) (h : ∀ e ∈ events, isInputEvt e = false) :
    notifCount (runEvents H s events).2 ≤ 1 ∧
    ttsCount (runEvents H s events).2 ≤ 1 :=
  ⟨(runEvents_notif H events s h).1, (runEvents_tts H events s h).1⟩

/-- C2 witness: a turn with two chunks carrying three markers in total
and two timer fires still delivers at most one frame of each kind. -/
theorem claim2_at_most_once_witness :
    notifCount (runEvents hLong sActive c2Trace).2 ≤ 1 ∧
    ttsCount (runEvents hLong sActive c2Trace).2 ≤ 1 :=
  claim2_at_most_once hLong sActive c2Trace (by decide)

/-- C4 counterexample.  The claim states that a turn exceeding the 120
second ceiling without settling never dispatches speech.  In the trace
below the turn starts at 1000 and its only chunk arrives at 120500,
still inside the ceiling, arming the completion timer for 122500.  When
the ceiling passes at 121001 the turn is not settled, yet the timer
fires at 122500 and a tts-audio frame is delivered: a turn that exceeded
the ceiling unsettled did dispatch speech. -/
theorem claim4_late_fire_cex :
    ttsCount (runEvents hLong sLive lateTrace).2 = 1 ∧
    (runEvents hLong sLive lateTracePre).1.ttsDone = false ∧
    (runEvents hLong sLive lateTracePre).1.userSentAt = 1000 ∧
    (runEvents hLong sLive lateTracePre).1.ttsDeadline = some 122500 := by
  decide

/-- C4 amended: an output chunk arriving more than 120 seconds after the
triggering input is ignored entirely, so a past-ceiling turn whose
completion timer is not already pending never delivers speech over any
further input-free events (a timer armed inside the ceiling may still
fire up to one quiescence window later); and the next user input
discards the accumulated raw buffer. -/
theorem claim4_abandonment_amended (H : Heuristics) (s s2 : ConnState)
    (raw d : String) (now now2 : Nat) (events : List Event)
    (h1 : 120000 < now - s.userSentAt) (hd : s.ttsDeadline = none)
    (hev : ∀ e ∈ events, lateOk s.userSentAt e) (hc : s2.child = true) :
    onOutputChunk H s raw now = (s, []) ∧
    ttsCount (runEvents H s events).2 = 0 ∧
    (onMessage s2 (InMsg.input d) now2).1.rawBuffer = "" := by
  refine ⟨onOutputChunk_late H s raw now h1, runEvents_late H events s hd hev, ?_⟩
  show (onInputMsg s2 d now2).1.rawBuffer = ""
  unfold onInputMsg
  have hnc : ¬ (s2.child = false) := by
    rw [hc]
    exact fun hx => Bool.noConfusion hx
  rw [if_neg hnc]
  split <;> rfl

/-- C4 witness: the amended statement for the turn started at 1000, a
chunk at 130000, a suffix of late events, and a fresh input. -/
theorem claim4_abandonment_witness :
    onOutputChunk hNone sActive xStr 130000 = (sActive, []) ∧
    ttsCount (runEvents hNone sActive lateEvents).2 = 0 ∧
    (onMessage sLive (InMsg.input userA) 5).1.rawBuffer = "" :=
  claim4_abandonment_amended hNone sActive sLive xStr userA 130000 5 lateEvents
    (by decide) (by decide) (by decide) (by decide)

/-- C7 witness: the amended statement at a live session and at a fresh
connection with no session. -/
theorem claim7_close_witness :
    (wsClose sActive).1.pingActive = false ∧
    (wsClose sActive).1.idleTimer = false ∧
    (wsClose sActive).1.child = false ∧
    (wsClose sActive).2 = [Effect.kill sigterm] ∧
    (wsClose sActive).1.ttsDeadline = sActive.ttsDeadline ∧
    wsClose (wsClose sActive).1 = ((wsClose sActive).1, []) ∧
    wsClose initState = ({ initState with pingActive := false, wsOpen := false,
                                          idleTimer := false }, []) :=
  claim7_close_amended sActive initState (by decide) (by decide)

/-!
Claim about the escape-sequence normalizer.
-/

/-- C9 counterexample.  Item six of the claim states that the sixth pass
removes all non-printable control bytes other than newline.  The delete
byte 0x7f is such a byte, yet it survives the whole normalizer
unchanged: the sixth replace only covers the ranges 00 to 08, 0B to 0C
and 0E to 1F (the tab byte 09 survives as well). -/
theorem claim9_del_survives_cex :
    stripAnsiServer delStr = delStr ∧ delStr ≠ "" := by
  decide

/-- C9 amended: stripAnsiServer is exactly the chain of the seven
passes, each operating on the output of the previous one, where (1) the
OSC pass deletes an escape byte, a right bracket, a bell-free body and
the closing bell, (2) the cursor-relocation pass replaces escape,
bracket, parameter bytes and one of the six relocation finals by a
single space, (3) the remaining parameterized control sequences with a
letter final are deleted, (4) character-set designations (escape,
parenthesis, capital or digit) are deleted, (5) generic escape sequences
(escape, intermediate bytes, one final byte) are deleted, (6) control
bytes in the ranges 00 to 08, 0B to 0C and 0E to 1F are deleted while
the newline is kept (tab, carriage return and delete also survive this
pass), and (7) a carriage return with an optional following line feed
becomes a single line feed; characters outside a pass's pattern are
passed through unchanged. -/
theorem claim9_normalizer_amended (s : String)
    (c : Char) (hc : c ≠ ESC)
    (body rest1 : List Char) (hb : ∀ b ∈ body, b ≠ BEL)
    (ps : List Char) (f2 : Char) (rest2 : List Char)
    (hps : ∀ x ∈ ps, isCsiParam x = true) (hf2 : isCursorFinal f2 = true)
    (qs : List Char) (g : Char) (rest3 : List Char)
    (hqs : ∀ x ∈ qs, isCsiParam x = true) (hg : isAlphaFinal g = true)
    (d4 e4 : Char) (rest4 : List Char)
    (hd4 : isParenByte d4 = true) (he4 : isUpperDigit e4 = true)
    (is5 : List Char) (f5 : Char) (rest5 : List Char)
    (hi5 : ∀ x ∈ is5, isInterByte x = true) (hf5 : isEscFinal f5 = true)
    (c6 : Char) (l6 : List Char) (hc6 : isStrippedCtrl c6 = true)
    (c7 : Char) (l7 : List Char) (hc7 : c7 ≠ '\n') :
    stripAnsiServer s =
      String.mk (crToLf (stripCtrl (stripEsc (stripCharset
        (stripCsi (cursorToSpace (stripOsc s.data))))))) ∧
    stripOsc (ESC :: ']' :: (body ++ BEL :: rest1)) = stripOsc rest1 ∧
    stripOsc (c :: rest1) = c :: stripOsc rest1 ∧
    cursorToSpace (ESC :: '[' :: (ps ++ f2 :: rest2)) =
      ' ' :: cursorToSpace rest2 ∧
    cursorToSpace (c :: rest2) = c :: cursorToSpace rest2 ∧
    stripCsi (ESC :: '[' :: (qs ++ g :: rest3)) = stripCsi rest3 ∧
    stripCsi (c :: rest3) = c :: stripCsi rest3 ∧
    stripCharset (ESC :: d4 :: e4 :: rest4) = stripCharset rest4 ∧
    stripCharset (c :: rest4) = c :: stripCharset rest4 ∧
    stripEsc (ESC :: (is5 ++ f5 :: rest5)) = stripEsc rest5 ∧
    stripEsc (c :: rest5) = c :: stripEsc rest5 ∧
    stripCtrl (c6 :: l6) = stripCtrl l6 ∧
    stripCtrl ('\n' :: l6) = '\n' :: stripCtrl l6 ∧
    crToLf ('\x0d' :: '\n' :: l7) = '\n' :: crToLf l7 ∧
    crToLf ('\x0d' :: c7 :: l7) = '\n' :: crToLf (c7 :: l7) ∧
    crToLf ['\x0d'] = ['\n'] :=
  ⟨rfl,
   stripOsc_removes body rest1 hb,
   stripOsc_skip c rest1 hc,
   cursorToSpace_removes ps f2 rest2 hps hf2,
   csiGo_skip isCursorFinal [' '] c rest2 hc,
   stripCsi_removes qs g rest3 hqs hg,
   csiGo_skip isAlphaFinal [] c rest3 hc,
   stripCharset_removes d4 e4 rest4 hd4 he4,
   stripCharset_skip c rest4 hc,
   stripEsc_removes is5 f5 rest5 hi5 hf5,
   stripEsc_skip c rest5 hc,
   stripCtrl_removes c6 l6 hc6,
   stripCtrl_keeps_newline l6,
   crToLf_crlf l7,
   crToLf_cr c7 l7 hc7,
   crToLf_single⟩

/-- C9 witness: the cursor-relocation conjunct of the amended statement
at a concrete sequence, with every hypothesis discharged on concrete
characters. -/
theorem claim9_normalizer_witness :
    cursorToSpace (ESC :: '[' :: (['1', '2'] ++ 'A' :: ['x'])) =
      ' ' :: cursorToSpace ['x'] :=
  (claim9_normalizer_amended xStr 'a' (by decide) ['0', ';'] ['h'] (by decide)
    ['1', '2'] 'A' ['x'] (by decide) (by decide)
    ['3'] 'm' ['y'] (by decide) (by decide)
    '(' 'B' ['z'] (by decide) (by decide)
    ['#'] '@' ['w'] (by decide) (by decide)
    '\x07' ['q'] (by decide)
    'q' ['u'] (by decide)).2.2.2.1

end ClaudeWebRemote
